import Mathlib

/-!
Verification of the creamsensation/parser request-binding library.

The repository holds two generations of the same package:
`src/parser.go` (the current one, embedded below at top level) and
`src/unnamed/part_001` (an older revision of the package, embedded in
namespace `Legacy`).  `src/unnamed/part_000` is the module file.

External collaborators (github.com/creamsensation/util, Go's net/http,
net/url, encoding/json, encoding/xml, mime/multipart) are modelled from
their documented behaviour and the spec; every such model carries a doc
comment saying so.  Machine integers are `Int` with explicit wrapping
where Go's int64 can overflow.
-/

/-- Destination kinds the conversion utility dispatches on (a representative
fragment of Go's reflect.Kind: scalars and slices thereof). -/
inductive Kind where
  | kInt
  | kString
  | kBool
  | kSliceInt
  | kSliceString
  deriving DecidableEq, Repr

/-- Runtime values stored in a destination slot. -/
inductive Value where
  | vInt (n : Int)
  | vString (s : String)
  | vBool (b : Bool)
  | vIntList (l : List Int)
  | vStringList (l : List String)
  deriving DecidableEq, Repr

/-- The error values the package can return.  `pointerTarget`,
`queryMissing`, `queryParamMissing`, `pathValueMissing`,
`invalidMultipart`, `openFile`, `readData` embed the package's named
sentinel errors (`util.ErrorPointerTarget` is identified with the legacy
`ErrorPointerTarget`); `convertError` stands for a scalar-conversion
failure from the conversion utility; `goError s` is an anonymous error
built with errors.New; `multipartParse` a failure of the transport
multipart decode; `eofError` is io.EOF as surfaced by the XML decoder;
`jsonDecodeError` / `xmlDecodeError` are decoder failures. -/
inductive Err where
  | pointerTarget
  | queryMissing
  | queryParamMissing
  | pathValueMissing
  | invalidMultipart
  | openFile
  | readData
  | convertError
  | goError (s : String)
  | multipartParse
  | eofError
  | jsonDecodeError
  | xmlDecodeError
  deriving DecidableEq, Repr

/-- Parse a run of decimal digits, accumulator style; `none` on any
non-digit. -/
def parseDigitsAux : List Char → Nat → Option Nat
  | [], acc => some acc
  | c :: t, acc =>
      if c.isDigit then parseDigitsAux t (acc * 10 + (c.toNat - 48)) else none

/-- Parse a non-empty digit string into a Nat. -/
def parseNatChars : List Char → Option Nat
  | [] => none
  | cs => parseDigitsAux cs 0

/-- Modelled external collaborator (strconv via creamsensation/util):
base-10 integer parsing, optional leading minus sign. -/
def parseIntString (s : String) : Option Int :=
  match s.data with
  | '-' :: rest => (parseNatChars rest).map (fun n => -(n : Int))
  | cs => (parseNatChars cs).map (fun n => (n : Int))

/-- Modelled external collaborator (strconv via creamsensation/util):
boolean literals; the exact accepted set is a pluggable policy per the
spec, this model accepts true/false/1/0. -/
def parseBoolString (s : String) : Option Bool :=
  if s = "true" ∨ s = "1" then some true
  else if s = "false" ∨ s = "0" then some false
  else none

/-- Modelled external collaborator (creamsensation/util): kind-directed
conversion of one string into a destination slot of the given kind. -/
def convertString (k : Kind) (s : String) : Except Err Value :=
  match k with
  | .kString => .ok (.vString s)
  | .kInt =>
      match parseIntString s with
      | some n => .ok (.vInt n)
      | none => .error .convertError
  | .kBool =>
      match parseBoolString s with
      | some b => .ok (.vBool b)
      | none => .error .convertError
  | .kSliceString => .ok (.vStringList [s])
  | .kSliceInt =>
      match parseIntString s with
      | some n => .ok (.vIntList [n])
      | none => .error .convertError

/-- Modelled external collaborator (creamsensation/util): kind-directed
conversion of a string sequence; the destination must be a sequence kind,
each element converted independently in input order. -/
def convertSliceStrings (k : Kind) (ss : List String) : Except Err Value :=
  match k with
  | .kSliceString => .ok (.vStringList ss)
  | .kSliceInt =>
      match ss.mapM parseIntString with
      | some ns => .ok (.vIntList ns)
      | none => .error .convertError
  | _ => .error .convertError

/-- A destination argument as Go sees it through the empty interface:
either a pointer to a slot of some kind, or a plain (non-addressable)
value. -/
inductive Target where
  | ptr (k : Kind)
  | nonPtr
  deriving DecidableEq, Repr

/-- Modelled external collaborator util.ConvertValue: a non-pointer
destination fails with ErrorPointerTarget (the converter mutates in
place), otherwise the single string is converted by the destination's
kind. -/
def ConvertValue (s : String) (tgt : Target) : Except Err Value :=
  match tgt with
  | .nonPtr => .error .pointerTarget
  | .ptr k => convertString k s

/-- Modelled external collaborator util.ConvertSlice: a non-pointer
destination fails with ErrorPointerTarget, otherwise the string sequence
is converted by the destination's kind. -/
def ConvertSlice (ss : List String) (tgt : Target) : Except Err Value :=
  match tgt with
  | .nonPtr => .error .pointerTarget
  | .ptr k => convertSliceStrings k ss

/-- Modelled external collaborator util.SetValueToReflected (legacy
revision): kind-directed in-place write with no error return; on an
unparsable literal the slot keeps its current value. -/
def SetValueToReflected (k : Kind) (cur : Value) (s : String) : Value :=
  match convertString k s with
  | .ok v => v
  | .error _ => cur

/-- Turn a conversion outcome into the (new slot content, error) pair the
binding operations return: on failure the slot keeps its current value
(no partial writes for a field). -/
def applyConv (cur : Value) : Except Err Value → Value × Option Err
  | .ok v => (v, none)
  | .error e => (cur, some e)

/-- Association-list lookup on string keys (Go map / url.Values view). -/
def lookupList {α : Type} : List (String × α) → String → Option α
  | [], _ => none
  | (k, v) :: t, key => if k = key then some v else lookupList t key

/-- One uploaded file part as seen through mime/multipart.FileHeader:
the original filename, its content, and whether Open / ReadAll fail. -/
structure FilePart where
  filename : String
  content : String
  openFails : Bool
  readFails : Bool
  deriving DecidableEq, Repr

/-- The parsed multipart form: field name → ordered file parts
(multipart.Form.File). -/
structure MultipartForm where
  file : List (String × List FilePart)
  deriving DecidableEq, Repr

/-- The abstract request: a multi-valued query mapping, the path-value
lookup, an optional live body stream (none embeds a nil Body), whether
the request is multipart-encoded, the latent multipart data that a
successful transport decode would yield (none: the decode fails), and
the decoded form once ParseMultipartForm ran. -/
structure Request where
  query : List (String × List String)
  pathValues : List (String × String)
  body : Option String
  isMultipart : Bool
  multipartData : Option MultipartForm
  multipartForm : Option MultipartForm := none
  deriving DecidableEq, Repr

/-- Modelled external collaborator (net/http): Request.PathValue returns
the route parameter or the empty string when absent. -/
def Request.PathValue (r : Request) (key : String) : String :=
  (lookupList r.pathValues key).getD ""

/-- Modelled external collaborator (net/url): Values.Has — the key is
present in the mapping (even with an empty value list). -/
def Request.queryHas (r : Request) (key : String) : Bool :=
  (lookupList r.query key).isSome

/-- Modelled external collaborator (net/url): Values.Get — first value of
the key, or the empty string when absent or empty. -/
def Request.queryGet (r : Request) (key : String) : String :=
  match lookupList r.query key with
  | some (s :: _) => s
  | _ => ""

/-- Drain the live body stream (io.ReadAll leaves an exhausted reader). -/
def Request.drainBody (r : Request) : Request :=
  { r with body := (r.body.map (fun _ => "")) }

/-- The Parser: the request, the optional pre-buffered payload
(defaultBytes; none embeds a nil slice, some "" an empty but supplied
slice), and the multipart size limit in megabytes (Go int64). -/
structure Parser where
  r : Request
  bytes : Option String
  limit : Int
  deriving DecidableEq, Repr

/-- New constructs a Parser from its three arguments. -/
def New (r : Request) (defaultBytes : Option String) (limit : Int) : Parser :=
  { r := r, bytes := defaultBytes, limit := limit }

/-- len(p.bytes): nil and empty slices both have length zero. -/
def Parser.bytesLen (p : Parser) : Nat :=
  (p.bytes.getD "").length

/-- Parser.Query (src-parser.go:49): look the key up in the query
mapping; absent → ErrorQueryMissing; one value → util.ConvertValue;
more → util.ConvertSlice; present with zero values → nil. -/
def Parser.Query (p : Parser) (key : String) (tgt : Target) (cur : Value) :
    Value × Option Err :=
  match lookupList p.r.query key with
  | none => (cur, some .queryMissing)
  | some qv =>
      match qv with
      | [] => (cur, none)
      | [s] => applyConv cur (ConvertValue s tgt)
      | _ => applyConv cur (ConvertSlice qv tgt)

/-- Parser.PathValue (src-parser.go:72): empty or absent path value →
ErrorPathValueMissing; otherwise util.ConvertValue. -/
def Parser.PathValue (p : Parser) (key : String) (tgt : Target) (cur : Value) :
    Value × Option Err :=
  let pathValue := p.r.PathValue key
  if pathValue.length = 0 then (cur, some .pathValueMissing)
  else applyConv cur (ConvertValue pathValue tgt)

/-- One declared field of a struct destination for Url: its query tag,
its path tag (Tag.Get returns "" for an absent tag), its kind, and its
current content. -/
structure StructField where
  queryTag : String
  pathTag : String
  kind : Kind
  value : Value
  deriving DecidableEq, Repr

/-- The destination argument of Url: a pointer to a struct, or a
non-pointer value. -/
inductive UrlTarget where
  | ptrStruct (fields : List StructField)
  | nonPtr
  deriving DecidableEq, Repr

/-- Apply a conversion outcome to a field: success writes the field,
failure leaves it and surfaces the error. -/
def applyFieldConv (f : StructField) : Except Err Value → StructField × Option Err
  | .ok v => ({ f with value := v }, none)
  | .error e => (f, some e)

/-- Parser.processQuery (src-parser.go:260): absent key or zero values →
no-op; one value → util.ConvertValue; more → util.ConvertSlice.  The
field value passed is the field's address interface, always a pointer. -/
def Parser.processQuery (p : Parser) (f : StructField) : StructField × Option Err :=
  match lookupList p.r.query f.queryTag with
  | none => (f, none)
  | some [] => (f, none)
  | some [s] => applyFieldConv f (ConvertValue s (.ptr f.kind))
  | some q => applyFieldConv f (ConvertSlice q (.ptr f.kind))

/-- Parser.processPathValue (src-parser.go:272): empty path value →
no-op; otherwise util.ConvertValue into the (addressable) field. -/
def Parser.processPathValue (p : Parser) (f : StructField) : StructField × Option Err :=
  let pathValue := p.r.PathValue f.pathTag
  if pathValue = "" then (f, none)
  else applyFieldConv f (ConvertValue pathValue (.ptr f.kind))

/-- The body of Url's per-field loop: processQuery, then (only on
success) processPathValue, first error returned. -/
def Parser.processField (p : Parser) (f : StructField) : StructField × Option Err :=
  match p.processQuery f with
  | (f1, some e) => (f1, some e)
  | (f1, none) => p.processPathValue f1

/-- Url's field loop: fields are processed left to right, the first
error halts processing; earlier writes stay. -/
def Parser.bindFields (p : Parser) : List StructField → List StructField × Option Err
  | [] => ([], none)
  | f :: rest =>
      match p.processField f with
      | (f1, some e) => (f1 :: rest, some e)
      | (f1, none) =>
          let (rest1, e1) := p.bindFields rest
          (f1 :: rest1, e1)

/-- Parser.Url (src-parser.go:87): a non-pointer destination is
util.ErrorPointerTarget; otherwise every field is processed by
processQuery then processPathValue. -/
def Parser.Url (p : Parser) (t : UrlTarget) : UrlTarget × Option Err :=
  match t with
  | .nonPtr => (.nonPtr, some .pointerTarget)
  | .ptrStruct fs =>
      let (fs1, e1) := p.bindFields fs
      (.ptrStruct fs1, e1)

/-- Parser.Text (src-parser.go:113): non-empty buffered payload is
returned verbatim; a nil body reads as ""; otherwise io.ReadAll drains
the live stream. -/
def Parser.Text (p : Parser) : (String × Option Err) × Parser :=
  if p.bytesLen > 0 then ((p.bytes.getD "", none), p)
  else
    match p.r.body with
    | none => (("", none), p)
    | some b => ((b, none), { p with r := p.r.drainBody })

/-- Minimal kind-directed parse of one JSON value, to the depth the
claims need (scalars; aggregate payloads are out of the claims' scope). -/
def jsonParseByKind (k : Kind) (s : String) : Option Value :=
  match k with
  | .kInt => (parseIntString s).map .vInt
  | .kBool =>
      if s = "true" then some (.vBool true)
      else if s = "false" then some (.vBool false)
      else none
  | .kString =>
      if 2 ≤ s.length ∧ s.front = '"' ∧ s.back = '"' then
        some (.vString ((s.drop 1).dropRight 1))
      else none
  | _ => none

/-- Modelled external collaborator (encoding/json): Decoder.Decode at
end of stream with no bytes returns io.EOF before looking at the
destination; a non-pointer destination or an unparsable payload is a
decode error; otherwise the decoded value is written. -/
def jsonDecoderDecode (b : String) (tgt : Target) : Except Err Value :=
  if b = "" then .error .eofError
  else
    match tgt with
    | .nonPtr => .error .jsonDecodeError
    | .ptr k =>
        match jsonParseByKind k b with
        | some v => .ok v
        | none => .error .jsonDecodeError

/-- Modelled external collaborator (encoding/json): Unmarshal; empty
input is a syntax error ("unexpected end of JSON input"), a non-pointer
destination an InvalidUnmarshalError. -/
def jsonUnmarshal (b : String) (tgt : Target) : Except Err Value :=
  if b = "" then .error .jsonDecodeError
  else
    match tgt with
    | .nonPtr => .error .jsonDecodeError
    | .ptr k =>
        match jsonParseByKind k b with
        | some v => .ok v
        | none => .error .jsonDecodeError

/-- Parser.Json (src-parser.go:132): non-empty buffered payload →
json.Unmarshal; nil body → nil; otherwise stream-decode, mapping io.EOF
to success (no write). -/
def Parser.Json (p : Parser) (tgt : Target) (cur : Value) :
    (Value × Option Err) × Parser :=
  if p.bytesLen > 0 then (applyConv cur (jsonUnmarshal (p.bytes.getD "") tgt), p)
  else
    match p.r.body with
    | none => ((cur, none), p)
    | some b =>
        let p1 := { p with r := p.r.drainBody }
        match jsonDecoderDecode b tgt with
        | .error .eofError => ((cur, none), p1)
        | .error e => ((cur, some e), p1)
        | .ok v => ((v, none), p1)

/-- Modelled external collaborator (encoding/xml): Decoder.Decode; at
end of stream it returns io.EOF (which Parser.Xml surfaces as-is);
payload shapes are modelled only to the depth the claims need. -/
def xmlDecoderDecode (b : String) (tgt : Target) : Except Err Value :=
  if b = "" then .error .eofError
  else
    match tgt with
    | .nonPtr => .error .xmlDecodeError
    | .ptr _ => .error .xmlDecodeError

/-- Modelled external collaborator (encoding/xml): Unmarshal; empty
input yields io.EOF. -/
def xmlUnmarshal (b : String) (tgt : Target) : Except Err Value :=
  xmlDecoderDecode b tgt

/-- Parser.Xml (src-parser.go:153): non-empty buffered payload →
xml.Unmarshal; nil body → nil; otherwise stream-decode with every error
(io.EOF included) surfaced as-is. -/
def Parser.Xml (p : Parser) (tgt : Target) (cur : Value) :
    (Value × Option Err) × Parser :=
  if p.bytesLen > 0 then (applyConv cur (xmlUnmarshal (p.bytes.getD "") tgt), p)
  else
    match p.r.body with
    | none => ((cur, none), p)
    | some b =>
        let p1 := { p with r := p.r.drainBody }
        match xmlDecoderDecode b tgt with
        | .ok v => ((v, none), p1)
        | .error e => ((cur, some e), p1)

/-- Collect characters up to the first dot, or none when no dot
occurs. -/
def takeUntilDot : List Char → Option (List Char)
  | [] => none
  | c :: t => if c = '.' then some [] else (takeUntilDot t).map (c :: ·)

/-- Modelled external collaborator (creamsensation/util):
GetFilenameSuffix — the extension after the last dot, "" when none. -/
def GetFilenameSuffix (s : String) : String :=
  match takeUntilDot s.data.reverse with
  | none => ""
  | some cs => ⟨cs.reverse⟩

/-- Modelled external collaborator (net/http): DetectContentType,
collapsed to the depth the claims need (no claim inspects the sniffing
table; empty content sniffs as text/plain like in Go). -/
def DetectContentType (data : String) : String :=
  if data = "" then "text/plain; charset=utf-8"
  else "application/octet-stream"

/-- form.Multipart (creamsensation/form): one uploaded part surfaced to
the caller. -/
structure Multipart where
  Key : String
  Name : String
  Type' : String
  Suffix : String
  Data : String
  deriving DecidableEq, Repr

/-- The zero value form.Multipart\x7b\x7d. -/
def emptyMultipart : Multipart :=
  { Key := "", Name := "", Type' := "", Suffix := "", Data := "" }

/-- The Multipart built for one file part of field `name`
(src-parser.go:239). -/
def fileToMultipart (name : String) (f : FilePart) : Multipart :=
  { Key := name
    Name := f.filename
    Type' := DetectContentType f.content
    Suffix := GetFilenameSuffix f.filename
    Data := f.content }

/-- The inner loop of createMultiparts over one field's file list: a
failing Open / ReadAll stops with the wrapped error and the result
gathered so far. -/
def collectFiles (name : String) :
    List FilePart → List Multipart → List Multipart × Option Err
  | [], acc => (acc, none)
  | f :: t, acc =>
      if f.openFails then (acc, some .openFile)
      else if f.readFails then (acc, some .readData)
      else collectFiles name t (acc ++ [fileToMultipart name f])

/-- The outer loop of createMultiparts over the form's fields: a
non-empty filter skips fields with a different name. -/
def createMultipartsLoop (fn : String) :
    List (String × List FilePart) → List Multipart → List Multipart × Option Err
  | [], acc => (acc, none)
  | (name, files) :: t, acc =>
      if fn.length > 0 ∧ name ≠ fn then createMultipartsLoop fn t acc
      else
        match collectFiles name files acc with
        | (acc1, some e) => (acc1, some e)
        | (acc1, none) => createMultipartsLoop fn t acc1

/-- Parser.createMultiparts (src-parser.go:219): only the FIRST variadic
name is used as the filter (fn := filename[0] when any names are given).
It reads p.r.MultipartForm, which its callers have always populated via
parseMultipartForm (in Go a nil form would be a panic; the model reads
an empty form). -/
def Parser.createMultiparts (p : Parser) (filename : List String) :
    List Multipart × Option Err :=
  let fn := filename.headD ""
  createMultipartsLoop fn (p.r.multipartForm.getD { file := [] }).file []

/-- Go's int64 left shift truncates to 64 bits, two's complement. -/
def wrap64 (n : Int) : Int :=
  let m := n % (2 ^ 64 : Int)
  if m < 2 ^ 63 then m else m - 2 ^ 64

/-- The byte limit handed to the transport multipart decode:
p.limit << 20 on Go's int64 (src-parser.go:257). -/
def Parser.multipartByteLimit (p : Parser) : Int :=
  wrap64 (p.limit * 2 ^ 20)

/-- Modelled external collaborator (creamsensation/util):
IsRequestMultipart — whether the request is multipart-encoded. -/
def IsRequestMultipart (r : Request) : Bool :=
  r.isMultipart

/-- Modelled external collaborator (net/http): ParseMultipartForm
decodes the multipart body within maxMemory bytes and stores the form on
the request; a malformed body is an error.  The byte bound caps memory
and does not alter the decoded form in this model. -/
def Request.ParseMultipartForm (r : Request) (_maxMemory : Int) :
    Except Err Request :=
  match r.multipartData with
  | none => .error .multipartParse
  | some mf => .ok { r with multipartForm := some mf }

/-- Parser.parseMultipartForm (src-parser.go:253): a non-multipart
request is ErrorInvalidMultipart; otherwise the transport decode runs
with byte limit p.limit << 20. -/
def Parser.parseMultipartForm (p : Parser) : Except Err Parser :=
  if ¬ IsRequestMultipart p.r then .error .invalidMultipart
  else
    match p.r.ParseMultipartForm p.multipartByteLimit with
    | .error e => .error e
    | .ok r1 => .ok { p with r := r1 }

/-- Parser.File (src-parser.go:170): a non-empty buffered payload
short-circuits to the empty part; otherwise parse the form, collect the
parts of the named field, and return the first (or the empty part when
none matched). -/
def Parser.File (p : Parser) (filename : String) :
    (Multipart × Option Err) × Parser :=
  if p.bytesLen > 0 then ((emptyMultipart, none), p)
  else
    match p.parseMultipartForm with
    | .error e => ((emptyMultipart, some e), p)
    | .ok p1 =>
        match p1.createMultiparts [filename] with
        | (_, some e) => ((emptyMultipart, some e), p1)
        | ([], none) => ((emptyMultipart, none), p1)
        | (m :: _, none) => ((m, none), p1)

/-- Parser.Files (src-parser.go:196): a non-empty buffered payload
short-circuits to the empty list; otherwise parse the form and collect
the matching parts. -/
def Parser.Files (p : Parser) (filesname : List String) :
    (List Multipart × Option Err) × Parser :=
  if p.bytesLen > 0 then (([], none), p)
  else
    match p.parseMultipartForm with
    | .error e => (([], some e), p)
    | .ok p1 =>
        match p1.createMultiparts filesname with
        | (_, some e) => (([], some e), p1)
        | (mps, none) => ((mps, none), p1)

namespace Legacy

/-- Legacy Parser.QueryParam (src-unnamed-part_001:49): the pointer check
comes first, then Values.Has, then a Get + SetValueToReflected write
(first value only, no sequence case, no conversion error). -/
def QueryParam (p : Parser) (key : String) (tgt : Target) (cur : Value) :
    Value × Option Err :=
  match tgt with
  | .nonPtr => (cur, some .pointerTarget)
  | .ptr k =>
      if ¬ p.r.queryHas key then (cur, some .queryParamMissing)
      else (SetValueToReflected k cur (p.r.queryGet key), none)

/-- Legacy Parser.PathValue (src-unnamed-part_001:68): the pointer check
comes first, then the path lookup; empty → ErrorPathValueMissing. -/
def PathValue (p : Parser) (key : String) (tgt : Target) (cur : Value) :
    Value × Option Err :=
  match tgt with
  | .nonPtr => (cur, some .pointerTarget)
  | .ptr k =>
      let pathValue := p.r.PathValue key
      if pathValue.length = 0 then (cur, some .pathValueMissing)
      else (SetValueToReflected k cur pathValue, none)

/-- The per-field body of the legacy Url loop: a tagged and present
query key writes first, a tagged non-empty path value writes second. -/
def bindField (p : Parser) (f : StructField) : StructField :=
  let f1 :=
    if f.queryTag.length > 0 ∧ p.r.queryHas f.queryTag then
      { f with value := SetValueToReflected f.kind f.value (p.r.queryGet f.queryTag) }
    else f
  let pathValue := p.r.PathValue f.pathTag
  if f.pathTag.length > 0 ∧ pathValue.length > 0 then
    { f1 with value := SetValueToReflected f1.kind f1.value pathValue }
  else f1

/-- Legacy Parser.Url (src-unnamed-part_001:91): a non-pointer
destination gets an anonymous errors.New error (not the PointerTarget
sentinel); field writes never fail. -/
def Url (p : Parser) (t : UrlTarget) : UrlTarget × Option Err :=
  match t with
  | .nonPtr => (.nonPtr, some (.goError "target must be a pointer"))
  | .ptrStruct fs => (.ptrStruct (fs.map (bindField p)), none)

end Legacy

/-- A concrete request used by the concrete evaluations below. -/
def reqA : Request :=
  { query := [("a", ["1"]), ("b", ["x", "y"]), ("c", [])]
    pathValues := [("id", "7")]
    body := none
    isMultipart := false
    multipartData := none }

/-- A concrete parser over reqA with no buffered payload. -/
def pA : Parser := New reqA none 1

/-- A string of length zero is the empty string. -/
theorem string_of_length_zero {s : String} (h : s.length = 0) : s = "" := by
  cases s with
  | mk data =>
    cases data with
    | nil => rfl
    | cons c t => simp [String.length] at h

/-- C1 counterexample: with a non-pointer destination and an absent key,
parser.go's Query returns ErrorQueryMissing, not ErrorPointerTarget —
the query lookup happens first and no pointer check precedes it. -/
theorem query_nonptr_absent_key_not_pointer_error :
    pA.Query "zzz" .nonPtr (.vInt 0) = (.vInt 0, some .queryMissing) ∧
    Err.queryMissing ≠ Err.pointerTarget := by decide

/-- C1 (amended): the legacy QueryParam/PathValue and parser.go's Url
return PointerTarget for non-pointer destinations before any lookup; the
legacy Url rejects non-pointers with a distinct errors.New value;
parser.go's Query and PathValue look the key up first, so an absent key
or empty path yields the missing-value error even for a non-pointer
destination, a present key with zero values is a silent no-op, and
PointerTarget surfaces only from the conversion utility once a value was
found. -/
theorem pointer_target_checks :
    (∀ (p : Parser) (key : String) (cur : Value),
        Legacy.QueryParam p key .nonPtr cur = (cur, some .pointerTarget)) ∧
    (∀ (p : Parser) (key : String) (cur : Value),
        Legacy.PathValue p key .nonPtr cur = (cur, some .pointerTarget)) ∧
    (∀ p : Parser, p.Url .nonPtr = (.nonPtr, some .pointerTarget)) ∧
    (∀ p : Parser,
        Legacy.Url p .nonPtr =
          (.nonPtr, some (.goError "target must be a pointer"))) ∧
    (∀ (p : Parser) (key : String) (cur : Value),
        lookupList p.r.query key = none →
        p.Query key .nonPtr cur = (cur, some .queryMissing)) ∧
    (∀ (p : Parser) (key : String) (cur : Value),
        lookupList p.r.query key = some [] →
        p.Query key .nonPtr cur = (cur, none)) ∧
    (∀ (p : Parser) (key : String) (cur : Value) (s : String)
        (rest : List String),
        lookupList p.r.query key = some (s :: rest) →
        p.Query key .nonPtr cur = (cur, some .pointerTarget)) ∧
    (∀ (p : Parser) (key : String) (cur : Value),
        p.r.PathValue key = "" →
        p.PathValue key .nonPtr cur = (cur, some .pathValueMissing)) ∧
    (∀ (p : Parser) (key : String) (cur : Value),
        p.r.PathValue key ≠ "" →
        p.PathValue key .nonPtr cur = (cur, some .pointerTarget)) := by
  refine ⟨?_, ?_, ?_, ?_, ?_, ?_, ?_, ?_, ?_⟩
  · intro p key cur; rfl
  · intro p key cur; rfl
  · intro p; rfl
  · intro p; rfl
  · intro p key cur h; simp [Parser.Query, h]
  · intro p key cur h; simp [Parser.Query, h]
  · intro p key cur s rest h
    rcases rest with _ | ⟨b, t⟩ <;>
      simp [Parser.Query, h, ConvertValue, ConvertSlice, applyConv]
  · intro p key cur h
    simp [Parser.PathValue, h]
  · intro p key cur h
    have hne : (p.r.PathValue key).length ≠ 0 :=
      fun h0 => h (string_of_length_zero h0)
    simp [Parser.PathValue, hne, ConvertValue, applyConv]

/-- C1 witness: the amended claim evaluated at a concrete input. -/
theorem pointer_target_checks_witness :
    pA.PathValue "id" .nonPtr (.vInt 0) = (.vInt 0, some .pointerTarget) :=
  pointer_target_checks.2.2.2.2.2.2.2.2 pA "id" (.vInt 0) (by decide)

/-- C4: for a present query key, parser.go's Query dispatches on the
value count: one value → scalar util.ConvertValue, two or more →
sequence util.ConvertSlice on the whole value list in input order, zero
values → success without touching the destination. -/
theorem query_value_count_dispatch (p : Parser) (key : String)
    (tgt : Target) (cur : Value) :
    (∀ s, lookupList p.r.query key = some [s] →
        p.Query key tgt cur = applyConv cur (ConvertValue s tgt)) ∧
    (∀ qv, lookupList p.r.query key = some qv → 2 ≤ qv.length →
        p.Query key tgt cur = applyConv cur (ConvertSlice qv tgt)) ∧
    (lookupList p.r.query key = some [] →
        p.Query key tgt cur = (cur, none)) := by
  refine ⟨?_, ?_, ?_⟩
  · intro s h; simp [Parser.Query, h]
  · intro qv h hlen
    rcases qv with _ | ⟨a, _ | ⟨b, t⟩⟩
    · simp at hlen
    · simp at hlen
    · simp [Parser.Query, h]
  · intro h; simp [Parser.Query, h]

/-- C4 witness: the two-value key "b" of reqA is converted as a
sequence. -/
theorem query_value_count_dispatch_witness :
    pA.Query "b" (.ptr .kSliceString) (.vInt 0) =
      applyConv (.vInt 0) (ConvertSlice ["x", "y"] (.ptr .kSliceString)) :=
  (query_value_count_dispatch pA "b" (.ptr .kSliceString) (.vInt 0)).2.1
    ["x", "y"] (by decide) (by decide)

/-- C5: an absent query key makes Query return ErrorQueryMissing (for
any destination) and the legacy QueryParam return
ErrorQueryParamMissing (for pointer destinations, whose check precedes
the lookup); an absent or empty path value makes both PathValues return
ErrorPathValueMissing; in every case the destination is left
unchanged. -/
theorem missing_key_errors (p : Parser) (key : String) (tgt : Target)
    (k : Kind) (cur : Value) :
    (lookupList p.r.query key = none →
        p.Query key tgt cur = (cur, some .queryMissing)) ∧
    (lookupList p.r.query key = none →
        Legacy.QueryParam p key (.ptr k) cur =
          (cur, some .queryParamMissing)) ∧
    (p.r.PathValue key = "" →
        p.PathValue key tgt cur = (cur, some .pathValueMissing)) ∧
    (p.r.PathValue key = "" →
        Legacy.PathValue p key (.ptr k) cur =
          (cur, some .pathValueMissing)) := by
  refine ⟨?_, ?_, ?_, ?_⟩
  · intro h; simp [Parser.Query, h]
  · intro h; simp [Legacy.QueryParam, Request.queryHas, h]
  · intro h; simp [Parser.PathValue, h]
  · intro h; simp [Legacy.PathValue, h]

/-- C5 witness: the four missing-key cases evaluated on pA at keys it
does not carry. -/
theorem missing_key_errors_witness :
    pA.Query "zzz" .nonPtr (.vString "q") =
      (.vString "q", some .queryMissing) ∧
    Legacy.QueryParam pA "zzz" (.ptr .kInt) (.vString "q") =
      (.vString "q", some .queryParamMissing) ∧
    pA.PathValue "nope" .nonPtr (.vString "q") =
      (.vString "q", some .pathValueMissing) ∧
    Legacy.PathValue pA "nope" (.ptr .kInt) (.vString "q") =
      (.vString "q", some .pathValueMissing) :=
  ⟨(missing_key_errors pA "zzz" .nonPtr .kInt (.vString "q")).1 (by decide),
   (missing_key_errors pA "zzz" .nonPtr .kInt (.vString "q")).2.1 (by decide),
   (missing_key_errors pA "nope" .nonPtr .kInt (.vString "q")).2.2.1 (by decide),
   (missing_key_errors pA "nope" .nonPtr .kInt (.vString "q")).2.2.2 (by decide)⟩

/-- A parser whose live body stream is present but already empty. -/
def pEmptyBody : Parser :=
  New { query := [], pathValues := [], body := some "",
        isMultipart := false, multipartData := none } none 1

/-- C7: Json against an empty body — a nil body, or a live stream with
no bytes — succeeds and leaves the destination unchanged (io.EOF is
mapped to nil), whatever the destination is. -/
theorem json_empty_body_noop (p : Parser) (tgt : Target) (cur : Value)
    (hb : p.bytesLen = 0) (h : p.r.body = none ∨ p.r.body = some "") :
    (p.Json tgt cur).1 = (cur, none) := by
  have hb' : ¬ p.bytesLen > 0 := by omega
  rcases h with h | h <;> simp [Parser.Json, hb', h, jsonDecoderDecode]

/-- C7 witness: both empty-body shapes, on a pointer and a non-pointer
destination. -/
theorem json_empty_body_noop_witness :
    (pA.Json (.ptr .kInt) (.vInt 5)).1 = (.vInt 5, none) ∧
    (pEmptyBody.Json .nonPtr (.vInt 5)).1 = (.vInt 5, none) :=
  ⟨json_empty_body_noop pA (.ptr .kInt) (.vInt 5) (by decide)
      (Or.inl (by decide)),
   json_empty_body_noop pEmptyBody .nonPtr (.vInt 5) (by decide)
      (Or.inr (by decide))⟩

/-- A parser carrying an empty-but-supplied buffered payload next to a
non-empty live stream. -/
def pEmptyPayload : Parser :=
  New { query := [], pathValues := [], body := some "x",
        isMultipart := false, multipartData := none } (some "") 1

/-- A parser with no payload and the same non-empty live stream. -/
def pLive : Parser :=
  New { query := [], pathValues := [], body := some "x",
        isMultipart := false, multipartData := none } none 1

/-- C8 counterexample: a parser constructed WITH a pre-buffered payload
(the empty slice) does not return the same string from two Text calls:
the buffered-mode guard tests the payload's length, so the live stream
is read once and drained. -/
theorem text_twice_differs_on_empty_payload :
    (pEmptyPayload.Text).1.1 = "x" ∧
    ((pEmptyPayload.Text).2.Text).1.1 = "" ∧
    (pEmptyPayload.Text).1.1 ≠ ((pEmptyPayload.Text).2.Text).1.1 := by
  decide

/-- C8 (amended): with a buffered payload of positive length Text is
idempotent (same string, parser untouched); with a zero-length or
missing payload and a live stream, the first call returns the full
stream, every later call returns "" and the drained parser is a fixed
point. -/
theorem text_read_semantics :
    (∀ p : Parser, 0 < p.bytesLen →
        (p.Text).1.1 = ((p.Text).2.Text).1.1 ∧ (p.Text).2 = p) ∧
    (∀ (p : Parser) (b : String), p.bytesLen = 0 → p.r.body = some b →
        (p.Text).1.1 = b ∧
        ((p.Text).2.Text).1.1 = "" ∧
        ((p.Text).2.Text).2 = (p.Text).2) := by
  constructor
  · intro p h
    constructor
    · simp [Parser.Text, h]
    · simp [Parser.Text, h]
  · intro p b hb h
    obtain ⟨r, bytes, limit⟩ := p
    obtain ⟨q, pv, body, im, md, mfm⟩ := r
    simp only at h
    subst h
    have hb' : ¬ Parser.bytesLen ⟨⟨q, pv, some b, im, md, mfm⟩, bytes, limit⟩ > 0 := by
      omega
    refine ⟨?_, ?_, ?_⟩ <;>
      simp [Parser.Text, Parser.bytesLen, Request.drainBody] at hb' ⊢ <;>
      simp [hb']

/-- C8 witness: the amended semantics at a buffered parser and at a
live-stream parser. -/
theorem text_read_semantics_witness :
    (((New reqA (some "hello") 1).Text).1.1 =
        (((New reqA (some "hello") 1).Text).2.Text).1.1 ∧
      ((New reqA (some "hello") 1).Text).2 = New reqA (some "hello") 1) ∧
    ((pLive.Text).1.1 = "x" ∧ ((pLive.Text).2.Text).1.1 = "" ∧
      ((pLive.Text).2.Text).2 = (pLive.Text).2) :=
  ⟨text_read_semantics.1 (New reqA (some "hello") 1) (by decide),
   text_read_semantics.2 pLive "x" (by decide) (by decide)⟩

/-- The same parser with its buffered payload dropped. -/
def Parser.stripPayload (p : Parser) : Parser :=
  { p with bytes := none }

/-- C9 counterexample: at the configured limit L = 2^43 megabytes the Go
int64 shift L << 20 overflows, so the byte limit handed to the
transport multipart decode is -2^63, not L × 2^20. -/
theorem byte_limit_overflow :
    (New { query := [], pathValues := [], body := none,
           isMultipart := true, multipartData := some { file := [] } }
        none (2 ^ 43)).multipartByteLimit = -(2 ^ 63) ∧
    (New { query := [], pathValues := [], body := none,
           isMultipart := true, multipartData := some { file := [] } }
        none (2 ^ 43)).multipartByteLimit ≠ (2 ^ 43) * 2 ^ 20 := by
  decide

/-- C9 (amended): whenever the configured limit L (an int64 count of
megabytes) satisfies -2^43 ≤ L < 2^43, the byte limit that
parseMultipartForm hands to the transport decode is exactly L × 2^20;
beyond that range the int64 shift wraps. -/
theorem byte_limit_exact (p : Parser) (h1 : -(2 ^ 43) ≤ p.limit)
    (h2 : p.limit < 2 ^ 43) :
    p.multipartByteLimit = p.limit * 2 ^ 20 := by
  simp only [Parser.multipartByteLimit, wrap64]
  split <;> omega

/-- C9 witness: the exact byte limit at the concrete limit 1 MB. -/
theorem byte_limit_exact_witness :
    pA.multipartByteLimit = pA.limit * 2 ^ 20 :=
  byte_limit_exact pA (by decide) (by decide)

/-- Every part of every field of the form opens and reads cleanly. -/
def cleanForm (mf : MultipartForm) : Bool :=
  mf.file.all (fun e => e.2.all (fun f => !f.openFails && !f.readFails))

/-- Every uploaded part across all fields, in form order. -/
def allParts (mf : MultipartForm) : List Multipart :=
  (mf.file.map (fun e => e.2.map (fileToMultipart e.1))).flatten

/-- On a clean file list, the inner collection loop appends every part
of the field and reports no error. -/
theorem collectFiles_clean (name : String) (files : List FilePart)
    (acc : List Multipart)
    (h : files.all (fun f => !f.openFails && !f.readFails) = true) :
    collectFiles name files acc =
      (acc ++ files.map (fileToMultipart name), none) := by
  induction files generalizing acc with
  | nil => simp [collectFiles]
  | cons f t ih =>
      simp only [List.all_cons, Bool.and_eq_true, Bool.not_eq_true'] at h
      obtain ⟨⟨ho, hr⟩, ht⟩ := h
      simp [collectFiles, ho, hr, ih _ ht]

/-- With the empty filter, the outer loop collects every field's parts
in order. -/
theorem createMultipartsLoop_all (l : List (String × List FilePart))
    (acc : List Multipart)
    (h : l.all (fun e => e.2.all (fun f => !f.openFails && !f.readFails)) = true) :
    createMultipartsLoop "" l acc =
      (acc ++ (l.map (fun e => e.2.map (fileToMultipart e.1))).flatten, none) := by
  induction l generalizing acc with
  | nil => simp [createMultipartsLoop]
  | cons e t ih =>
      obtain ⟨name, files⟩ := e
      simp only [List.all_cons, Bool.and_eq_true] at h
      rw [createMultipartsLoop]
      simp only [String.length, List.length_nil, Nat.lt_irrefl, false_and,
        if_false]
      rw [collectFiles_clean name files acc h.1]
      simp [ih _ h.2, List.append_assoc]

/-- With a non-empty filter, the outer loop collects exactly the parts
of the fields carrying the filtered name. -/
theorem createMultipartsLoop_filter (fn : String) (hfn : fn ≠ "")
    (l : List (String × List FilePart)) (acc : List Multipart)
    (h : l.all (fun e => e.2.all (fun f => !f.openFails && !f.readFails)) = true) :
    createMultipartsLoop fn l acc =
      (acc ++ ((l.filter (fun e => e.1 == fn)).map
          (fun e => e.2.map (fileToMultipart e.1))).flatten, none) := by
  have hlen : 0 < fn.length := by
    rcases Nat.eq_zero_or_pos fn.length with h0 | h0
    · exact absurd (string_of_length_zero h0) hfn
    · exact h0
  induction l generalizing acc with
  | nil => simp [createMultipartsLoop]
  | cons e t ih =>
      obtain ⟨name, files⟩ := e
      simp only [List.all_cons, Bool.and_eq_true] at h
      rw [createMultipartsLoop]
      by_cases hname : name = fn
      · subst hname
        simp only [ne_eq, not_true_eq_false, and_false, if_false]
        rw [collectFiles_clean name files acc h.1]
        simp [ih _ h.2, List.filter_cons, List.append_assoc]
      · simp only [hlen, ne_eq, hname, not_false_eq_true, and_self, if_true]
        rw [ih _ h.2]
        simp [List.filter_cons, hname]

/-- With a non-empty filter matched by no field, the outer loop collects
nothing. -/
theorem createMultipartsLoop_skip (fn : String) (hfn : fn ≠ "")
    (l : List (String × List FilePart)) (acc : List Multipart)
    (h : l.all (fun e => e.1 != fn) = true) :
    createMultipartsLoop fn l acc = (acc, none) := by
  have hlen : 0 < fn.length := by
    rcases Nat.eq_zero_or_pos fn.length with h0 | h0
    · exact absurd (string_of_length_zero h0) hfn
    · exact h0
  induction l with
  | nil => simp [createMultipartsLoop]
  | cons e t ih =>
      obtain ⟨name, files⟩ := e
      simp only [List.all_cons, Bool.and_eq_true, bne_iff_ne, ne_eq] at h
      rw [createMultipartsLoop]
      simp only [hlen, ne_eq, h.1, not_false_eq_true, and_self, if_true]
      exact ih (by simpa using h.2)

/-- One concrete clean file part under field name "x". -/
def fpX : FilePart :=
  { filename := "a.txt", content := "hi", openFails := false,
    readFails := false }

/-- A multipart parser whose only uploaded field is named "x". -/
def pMulti : Parser :=
  New { query := [], pathValues := [], body := none, isMultipart := true,
        multipartData := some { file := [("x", [fpX])] } } none 1

/-- C6 counterexample: File "" on a multipart form whose only field is
"x" — no uploaded field matches the requested name — returns the part
of field "x" with no error, not the empty value: the empty requested
name disables the field filter. -/
theorem file_empty_name_returns_part :
    (pMulti.File "").1.1 ≠ emptyMultipart ∧
    (pMulti.File "").1.2 = none ∧
    ("x" : String) ≠ "" := by decide

/-- C6 (amended): without a buffered payload, File and Files on a
non-multipart request return ErrorInvalidMultipart; on a multipart
request whose transport decode succeeds, File with a NON-empty name
matched by no uploaded field returns the empty part and no error (an
empty requested name instead disables the field filter and can return a
part of any field). -/
theorem file_error_and_empty_semantics :
    (∀ (p : Parser) (fn : String), p.bytesLen = 0 →
        p.r.isMultipart = false →
        (p.File fn).1 = (emptyMultipart, some .invalidMultipart)) ∧
    (∀ (p : Parser) (fns : List String), p.bytesLen = 0 →
        p.r.isMultipart = false →
        (p.Files fns).1 = ([], some .invalidMultipart)) ∧
    (∀ (p : Parser) (fn : String) (mf : MultipartForm), p.bytesLen = 0 →
        p.r.isMultipart = true → p.r.multipartData = some mf → fn ≠ "" →
        mf.file.all (fun e => e.1 != fn) = true →
        (p.File fn).1 = (emptyMultipart, none)) := by
  refine ⟨?_, ?_, ?_⟩
  · intro p fn hb him
    have hb' : ¬ p.bytesLen > 0 := by omega
    simp [Parser.File, Parser.parseMultipartForm, IsRequestMultipart, him,
      hb']
  · intro p fns hb him
    have hb' : ¬ p.bytesLen > 0 := by omega
    simp [Parser.Files, Parser.parseMultipartForm, IsRequestMultipart, him,
      hb']
  · intro p fn mf hb him hd hfn hnone
    obtain ⟨r, bytes, limit⟩ := p
    obtain ⟨q, pv, body, im, md, mfm⟩ := r
    dsimp only at him hd
    subst him
    subst hd
    dsimp only [Parser.bytesLen] at hb
    simp [Parser.File, Parser.parseMultipartForm, IsRequestMultipart,
      Request.ParseMultipartForm, Parser.createMultiparts, Parser.bytesLen,
      hb, createMultipartsLoop_skip fn hfn mf.file [] hnone]

/-- C6 witness: the amended File/Files semantics at concrete parsers. -/
theorem file_error_and_empty_semantics_witness :
    (pA.File "f").1 = (emptyMultipart, some .invalidMultipart) ∧
    (pA.Files []).1 = ([], some .invalidMultipart) ∧
    (pMulti.File "avatar").1 = (emptyMultipart, none) :=
  ⟨file_error_and_empty_semantics.1 pA "f" (by decide) (by decide),
   file_error_and_empty_semantics.2.1 pA [] (by decide) (by decide),
   file_error_and_empty_semantics.2.2 pMulti "avatar"
     { file := [("x", [fpX])] }
     (by decide) (by decide) (by decide) (by decide) (by decide)⟩

/-- A clean part of field "a". -/
def fpA1 : FilePart :=
  { filename := "a.txt", content := "A", openFails := false,
    readFails := false }

/-- A clean part of field "b". -/
def fpB1 : FilePart :=
  { filename := "b.txt", content := "B", openFails := false,
    readFails := false }

/-- A multipart form with one part each under fields "a" and "b". -/
def mfAB : MultipartForm :=
  { file := [("a", [fpA1]), ("b", [fpB1])] }

/-- A multipart parser over mfAB. -/
def pTwoFields : Parser :=
  New { query := [], pathValues := [], body := none, isMultipart := true,
        multipartData := some mfAB } none 1

/-- C3 counterexample: Files ["a", "b"] on a form holding one part under
each of the fields "a" and "b" returns only field "a"'s part — the part
of the second supplied name "b" is not included, because
createMultiparts uses only the first variadic name as the filter. -/
theorem files_drops_second_name :
    (pTwoFields.Files ["a", "b"]).1 = ([fileToMultipart "a" fpA1], none) ∧
    fileToMultipart "b" fpB1 ∉ (pTwoFields.Files ["a", "b"]).1.1 := by
  decide

/-- C3 (amended): without a buffered payload, on a successfully decoded
multipart form all of whose parts open and read cleanly, Files with
zero names returns every part across all fields in form order; Files
with one or more names uses ONLY the first name as the field filter —
the parts of the fields carrying that first name are returned and every
further name is ignored (an empty first name disables filtering). -/
theorem files_first_name_filter (p : Parser) (mf : MultipartForm)
    (hb : p.bytesLen = 0) (him : p.r.isMultipart = true)
    (hd : p.r.multipartData = some mf) (hc : cleanForm mf = true) :
    (p.Files []).1 = (allParts mf, none) ∧
    (∀ (fn : String) (rest : List String), fn ≠ "" →
        (p.Files (fn :: rest)).1 =
          (allParts { file := mf.file.filter (fun e => e.1 == fn) },
            none)) := by
  obtain ⟨r, bytes, limit⟩ := p
  obtain ⟨q, pv, body, im, md, mfm⟩ := r
  dsimp only at him hd
  subst him
  subst hd
  dsimp only [Parser.bytesLen] at hb
  unfold cleanForm at hc
  constructor
  · simp [Parser.Files, Parser.parseMultipartForm, IsRequestMultipart,
      Request.ParseMultipartForm, Parser.createMultiparts, Parser.bytesLen,
      hb, allParts, createMultipartsLoop_all mf.file [] hc]
  · intro fn rest hfn
    simp [Parser.Files, Parser.parseMultipartForm, IsRequestMultipart,
      Request.ParseMultipartForm, Parser.createMultiparts, Parser.bytesLen,
      hb, allParts, createMultipartsLoop_filter fn hfn mf.file [] hc]

/-- C3 witness: the amended Files semantics on the two-field form. -/
theorem files_first_name_filter_witness :
    (pTwoFields.Files []).1 = (allParts mfAB, none) ∧
    (pTwoFields.Files ["b", "zzz"]).1 =
      (allParts { file := mfAB.file.filter (fun e => e.1 == "b") },
        none) :=
  ⟨(files_first_name_filter pTwoFields mfAB (by decide) (by decide)
      (by decide) (by decide)).1,
   (files_first_name_filter pTwoFields mfAB (by decide) (by decide)
      (by decide) (by decide)).2 "b" ["zzz"] (by decide)⟩


/-- C10: a parser holding an empty-but-supplied buffered payload behaves
exactly like one with no payload at all: every body and file accessor
gates buffered mode on the payload's length being positive, so
Text/Json/Xml read the live body stream and File/Files attempt the
multipart parse instead of short-circuiting to empty. -/
theorem empty_payload_same_as_none (p : Parser) (tgt : Target)
    (cur : Value) (fn : String) (fns : List String)
    (h : p.bytes = some "") :
    (p.Text).1 = (p.stripPayload.Text).1 ∧
    (p.Text).2.r = (p.stripPayload.Text).2.r ∧
    (p.Json tgt cur).1 = (p.stripPayload.Json tgt cur).1 ∧
    (p.Json tgt cur).2.r = (p.stripPayload.Json tgt cur).2.r ∧
    (p.Xml tgt cur).1 = (p.stripPayload.Xml tgt cur).1 ∧
    (p.Xml tgt cur).2.r = (p.stripPayload.Xml tgt cur).2.r ∧
    (p.File fn).1 = (p.stripPayload.File fn).1 ∧
    (p.File fn).2.r = (p.stripPayload.File fn).2.r ∧
    (p.Files fns).1 = (p.stripPayload.Files fns).1 ∧
    (p.Files fns).2.r = (p.stripPayload.Files fns).2.r := by
  obtain ⟨r, bytes, limit⟩ := p
  dsimp only at h
  subst h
  refine ⟨?_, ?_, ?_, ?_, ?_, ?_, ?_, ?_, ?_, ?_⟩
  · cases hb : r.body <;>
      simp [Parser.Text, Parser.bytesLen, Parser.stripPayload, hb]
  · cases hb : r.body <;>
      simp [Parser.Text, Parser.bytesLen, Parser.stripPayload, hb]
  · cases hb : r.body with
    | none => simp [Parser.Json, Parser.bytesLen, Parser.stripPayload, hb]
    | some b =>
        simp only [Parser.Json, Parser.bytesLen, Parser.stripPayload,
          Option.getD, String.length, hb]
        rcases jsonDecoderDecode b tgt with e | v
        · cases e <;> simp
        · simp
  · cases hb : r.body with
    | none => simp [Parser.Json, Parser.bytesLen, Parser.stripPayload, hb]
    | some b =>
        simp only [Parser.Json, Parser.bytesLen, Parser.stripPayload,
          Option.getD, String.length, hb]
        rcases jsonDecoderDecode b tgt with e | v
        · cases e <;> simp
        · simp
  · cases hb : r.body with
    | none => simp [Parser.Xml, Parser.bytesLen, Parser.stripPayload, hb]
    | some b =>
        simp only [Parser.Xml, Parser.bytesLen, Parser.stripPayload,
          Option.getD, String.length, hb]
        rcases xmlDecoderDecode b tgt with e | v <;> simp
  · cases hb : r.body with
    | none => simp [Parser.Xml, Parser.bytesLen, Parser.stripPayload, hb]
    | some b =>
        simp only [Parser.Xml, Parser.bytesLen, Parser.stripPayload,
          Option.getD, String.length, hb]
        rcases xmlDecoderDecode b tgt with e | v <;> simp
  · cases him : r.isMultipart with
    | false =>
        simp [Parser.File, Parser.parseMultipartForm, IsRequestMultipart,
          him, Parser.bytesLen, Parser.stripPayload]
    | true =>
        cases hmd : r.multipartData with
        | none =>
            simp [Parser.File, Parser.parseMultipartForm,
              IsRequestMultipart, him, hmd, Request.ParseMultipartForm,
              Parser.bytesLen, Parser.stripPayload]
        | some mf =>
            simp only [Parser.File, Parser.parseMultipartForm,
              IsRequestMultipart, him, hmd, Request.ParseMultipartForm,
              Parser.bytesLen, Parser.stripPayload, Parser.createMultiparts,
              Option.getD, List.headD, String.length]
            rcases hres : createMultipartsLoop fn mf.file []
              with ⟨_ | ⟨m, mt⟩, _ | e⟩ <;> simp [hres]
  · cases him : r.isMultipart with
    | false =>
        simp [Parser.File, Parser.parseMultipartForm, IsRequestMultipart,
          him, Parser.bytesLen, Parser.stripPayload]
    | true =>
        cases hmd : r.multipartData with
        | none =>
            simp [Parser.File, Parser.parseMultipartForm,
              IsRequestMultipart, him, hmd, Request.ParseMultipartForm,
              Parser.bytesLen, Parser.stripPayload]
        | some mf =>
            simp only [Parser.File, Parser.parseMultipartForm,
              IsRequestMultipart, him, hmd, Request.ParseMultipartForm,
              Parser.bytesLen, Parser.stripPayload, Parser.createMultiparts,
              Option.getD, List.headD, String.length]
            rcases hres : createMultipartsLoop fn mf.file []
              with ⟨_ | ⟨m, mt⟩, _ | e⟩ <;> simp [hres]
  · cases him : r.isMultipart with
    | false =>
        simp [Parser.Files, Parser.parseMultipartForm, IsRequestMultipart,
          him, Parser.bytesLen, Parser.stripPayload]
    | true =>
        cases hmd : r.multipartData with
        | none =>
            simp [Parser.Files, Parser.parseMultipartForm,
              IsRequestMultipart, him, hmd, Request.ParseMultipartForm,
              Parser.bytesLen, Parser.stripPayload]
        | some mf =>
            simp only [Parser.Files, Parser.parseMultipartForm,
              IsRequestMultipart, him, hmd, Request.ParseMultipartForm,
              Parser.bytesLen, Parser.stripPayload, Parser.createMultiparts,
              Option.getD, String.length]
            rcases hres : createMultipartsLoop (fns.head?.getD "") mf.file []
              with ⟨mps, _ | e⟩ <;> simp [hres]
  · cases him : r.isMultipart with
    | false =>
        simp [Parser.Files, Parser.parseMultipartForm, IsRequestMultipart,
          him, Parser.bytesLen, Parser.stripPayload]
    | true =>
        cases hmd : r.multipartData with
        | none =>
            simp [Parser.Files, Parser.parseMultipartForm,
              IsRequestMultipart, him, hmd, Request.ParseMultipartForm,
              Parser.bytesLen, Parser.stripPayload]
        | some mf =>
            simp only [Parser.Files, Parser.parseMultipartForm,
              IsRequestMultipart, him, hmd, Request.ParseMultipartForm,
              Parser.bytesLen, Parser.stripPayload, Parser.createMultiparts,
              Option.getD, String.length]
            rcases hres : createMultipartsLoop (fns.head?.getD "") mf.file []
              with ⟨mps, _ | e⟩ <;> simp [hres]

/-- C10 witness: the equivalence at a concrete multipart parser carrying
an empty supplied payload. -/
theorem empty_payload_same_as_none_witness :
    ((New { query := [], pathValues := [], body := some "x",
            isMultipart := true, multipartData := some mfAB }
        (some "") 1).Text).1 =
      ((New { query := [], pathValues := [], body := some "x",
              isMultipart := true, multipartData := some mfAB }
          (some "") 1).stripPayload.Text).1 ∧
    ((New { query := [], pathValues := [], body := some "x",
            isMultipart := true, multipartData := some mfAB }
        (some "") 1).Files []).1 =
      ((New { query := [], pathValues := [], body := some "x",
              isMultipart := true, multipartData := some mfAB }
          (some "") 1).stripPayload.Files []).1 := by
  have h := empty_payload_same_as_none
    (New { query := [], pathValues := [], body := some "x",
           isMultipart := true, multipartData := some mfAB } (some "") 1)
    .nonPtr (.vInt 0) "f" [] (by decide)
  exact ⟨h.1, h.2.2.2.2.2.2.2.2.1⟩

/-- processQuery writes at most the field's value slot: tags and kind
are untouched. -/
theorem processQuery_shape (p : Parser) (f : StructField) :
    ∃ v, (p.processQuery f).1 = { f with value := v } := by
  unfold Parser.processQuery
  rcases lookupList p.r.query f.queryTag with _ | ⟨_ | ⟨s, _ | ⟨b, t⟩⟩⟩
  · exact ⟨f.value, rfl⟩
  · exact ⟨f.value, rfl⟩
  · rcases hc : ConvertValue s (.ptr f.kind) with e | v
    · exact ⟨f.value, by simp [applyFieldConv, hc]⟩
    · exact ⟨v, by simp [applyFieldConv, hc]⟩
  · rcases hc : ConvertSlice (s :: b :: t) (.ptr f.kind) with e | v
    · exact ⟨f.value, by simp [applyFieldConv, hc]⟩
    · exact ⟨v, by simp [applyFieldConv, hc]⟩

/-- When the whole field loop of Url succeeds, its result is the
per-field processing of every field, each of which succeeded. -/
theorem bindFields_success (p : Parser) (fs : List StructField)
    (h : (p.bindFields fs).2 = none) :
    (p.bindFields fs).1 = fs.map (fun f => (p.processField f).1) ∧
    ∀ f ∈ fs, (p.processField f).2 = none := by
  induction fs with
  | nil => simp [Parser.bindFields]
  | cons f t ih =>
      rw [Parser.bindFields] at h ⊢
      rcases hpf : p.processField f with ⟨f1, e?⟩
      cases e? with
      | some e => rw [hpf] at h; simp at h
      | none =>
          rw [hpf] at h
          simp only at h
          obtain ⟨ih1, ih2⟩ := ih h
          constructor
          · simp [hpf, ih1]
          · intro g hg
            rcases List.mem_cons.mp hg with hg1 | hg1
            · subst hg1; simp [hpf]
            · exact ih2 g hg1

/-- A successfully processed field whose path tag resolves to a
non-empty path value that converts to vp ends up holding vp: the path
write happens after the query write. -/
theorem processField_path_wins (p : Parser) (f : StructField) (vp : Value)
    (hpv : p.r.PathValue f.pathTag ≠ "")
    (hcv : convertString f.kind (p.r.PathValue f.pathTag) = .ok vp)
    (hok : (p.processField f).2 = none) :
    (p.processField f).1 = { f with value := vp } := by
  obtain ⟨v1, hshape⟩ := processQuery_shape p f
  rcases hpq : p.processQuery f with ⟨f1, e?⟩
  cases e? with
  | some e =>
      unfold Parser.processField at hok
      rw [hpq] at hok
      simp at hok
  | none =>
      have hf1 : f1 = { f with value := v1 } := by
        rw [hpq] at hshape
        exact hshape
      have hpf : p.processField f = p.processPathValue f1 := by
        unfold Parser.processField
        rw [hpq]
      rw [hpf]
      subst hf1
      unfold Parser.processPathValue
      simp only [hpv, if_false]
      simp [ConvertValue, hcv, applyFieldConv]

/-- C2: in parser.go's Url, when a field's query tag is present in the
query mapping with at least one value and its path tag resolves to a
non-empty path value converting to vp, a successful Url leaves that
field holding vp — the path write is applied after the query write and
overwrites it. -/
theorem url_path_overwrites_query (p : Parser) (fs : List StructField)
    (i : Nat) (hi : i < fs.length) (vp : Value)
    (_hq : ∃ s rest,
        lookupList p.r.query (fs[i]).queryTag = some (s :: rest))
    (hpv : p.r.PathValue (fs[i]).pathTag ≠ "")
    (hcv : convertString (fs[i]).kind
        (p.r.PathValue (fs[i]).pathTag) = .ok vp)
    (hok : (p.Url (.ptrStruct fs)).2 = none) :
    p.Url (.ptrStruct fs) = (.ptrStruct ((p.bindFields fs).1), none) ∧
    ((p.bindFields fs).1)[i]? = some { fs[i] with value := vp } := by
  have hok' : (p.bindFields fs).2 = none := hok
  obtain ⟨hmap, hall⟩ := bindFields_success p fs hok'
  constructor
  · show (UrlTarget.ptrStruct (p.bindFields fs).1, (p.bindFields fs).2) =
      (UrlTarget.ptrStruct ((p.bindFields fs).1), none)
    rw [hok']
  · rw [hmap, List.getElem?_map, List.getElem?_eq_getElem hi]
    have hmem : fs[i] ∈ fs := List.getElem_mem hi
    have := processField_path_wins p (fs[i]) vp hpv hcv (hall _ hmem)
    simp [this]

/-- The request of the spec scenario: query id=3 together with path
id=7. -/
def reqC2 : Request :=
  { query := [("id", ["3"])], pathValues := [("id", "7")], body := none,
    isMultipart := false, multipartData := none }

/-- A struct field annotated query:"id" path:"id". -/
def fieldId : StructField :=
  { queryTag := "id", pathTag := "id", kind := .kInt, value := .vInt 0 }

/-- C2 witness: binding the spec scenario — query id=3, path id=7, one
int field tagged with both — yields 7. -/
theorem url_path_overwrites_query_witness :
    (New reqC2 none 1).Url (.ptrStruct [fieldId]) =
      (.ptrStruct (((New reqC2 none 1).bindFields [fieldId]).1), none) ∧
    (((New reqC2 none 1).bindFields [fieldId]).1)[0]? =
      some { fieldId with value := .vInt 7 } :=
  url_path_overwrites_query (New reqC2 none 1) [fieldId] 0 (by decide)
    (.vInt 7) ⟨"3", [], by decide⟩ (by decide) (by rfl) (by decide)
